import Mathlib

/-!
Verification development for the reliable-UDP request/reply transport
(`UdpServer`).  The repository ships only the class declaration
(`src/UdpServer.h`); the member-function bodies and the `UdpSlot` record live
in translation units that are not in the tree, so the operational behaviour is
modelled from the specification, faithful to its words, while every constant
and default value that does appear in the header is taken from the header.
Bitmaps of datagram sequence numbers are embedded as finite sets of set bits
(`Finset ℕ`), so `popcount` is `Finset.card`.
-/

namespace Udp

/-- From src/UdpServer.h line 40: the sentinel timeout value that requests an
infinite overall timeout. -/
def udpserver_sendrequest_infinite_timeout : Int := 999999999999

/-- Modelled from the spec: ACK_WINDOW_SIZE is defined in UdpProtocol.h, which
is not in src/.  The spec's end-to-end scenario 2 uses 16; the claims are
relative to the constant, not to its numeric value. -/
def ACK_WINDOW_SIZE : Nat := 16

/-- Modelled from the spec: error code for "no ACK received after the resend
budget was exhausted" (mentioned in src/UdpServer.h line 85 as ENOACK).  The
error-code numeric values are not in src/; only their distinctness matters. -/
def ENOACK : Int := 200001

/-- Modelled from the spec: overall-deadline timeout error (ETIMEDOUT,
mentioned in src/UdpServer.h line 68). -/
def ETIMEDOUT : Int := 110

/-- Modelled from the spec: "no slots" / table-full error returned by
sendRequest when all max_slots slots are in use. -/
def ENOSLOTS : Int := 200002

/-- Modelled from the spec: error replied to new incoming requests while a
graceful shutdown is waiting (spec section 4.7: "reply ECLOSED to new ones"). -/
def ECLOSED : Int := 200003

/-- Modelled from the spec: error used by an urgent shutdown to fail all
active slots. -/
def ESHUTTINGDOWN : Int := 200004

/-- Modelled from the spec: the per-transaction record `UdpSlot` (declared but
not defined in src/; spec section 3 "Slot" lists its essential attributes).
Bitmaps are sets of sequence numbers; `recvBuf` records the payload written at
each sequence-indexed offset. -/
structure UdpSlot where
  transId : Nat
  incoming : Bool
  niceness : Nat
  sendDgramCount : Nat
  recvDgramCount : Nat
  sent : Finset Nat
  acked : Finset Nat
  received : Finset Nat
  acksToSend : Finset Nat
  recvBuf : Finset (Nat × Nat)
  resendBackoffMs : Int
  maxBackoffMs : Int
  nextResendAt : Int
  timeoutMs : Int
  overallDeadline : Int
  resendCount : Int
  maxResends : Int
  errno : Int
deriving DecidableEq

/-- Modelled from the spec: the fields of a parsed datagram header that the
transport consumes (spec section 3 "Datagram (wire)"); the codec itself
(UdpProtocol.h) is not in src/. -/
structure UdpDgram where
  transId : Nat
  seq : Nat
  totalDgrams : Nat
  payload : Nat
deriving DecidableEq

/-- Modelled from the spec: the data-dgram handling of readSock for an
existing slot (src/UdpServer.h line 248 declares readSock only): "When a dgram
is received, its bit is set in received_bitmap and in acks_to_send_bitmap"
and the payload is recorded at the sequence-indexed offset; a duplicate
(bit already set) just re-marks the ACK. -/
def readDataDgram (s : UdpSlot) (seq payload : Nat) : UdpSlot :=
  { s with received := insert seq s.received,
           acksToSend := insert seq s.acksToSend,
           recvBuf := insert (seq, payload) s.recvBuf }

/-- The per-slot outstanding window of sent-but-unacked datagrams,
`popcount(sent_bitmap) − popcount(acked_bitmap)` (spec section 8). -/
def windowOf (s : UdpSlot) : Nat := s.sent.card - s.acked.card

/-- The least sequence number of a request/reply datagram that has not been
sent yet, if any. -/
def firstUnsent (s : UdpSlot) : Option Nat :=
  (List.range s.sendDgramCount).find? (fun i => decide (i ∉ s.sent))

/-- Does the slot still have an unsent datagram? -/
def hasUnsentDgram (s : UdpSlot) : Bool := (firstUnsent s).isSome

/-- Modelled from the spec: a slot needs a resend when it has unacked sent
dgrams past its next_resend_at (spec section 4.3, fairness rule 1). -/
def needsResend (now : Int) (s : UdpSlot) : Bool :=
  decide ((s.sent \ s.acked).Nonempty) && decide (s.nextResendAt ≤ now)

/-- Modelled from the spec: a slot is eligible to have a datagram emitted when
it has work pending (an unsent dgram or a resend due) and its outstanding
window is strictly below ACK_WINDOW_SIZE (spec section 4.3, fairness rule 3:
"Never send from a slot whose outstanding window equals ACK_WINDOW_SIZE"). -/
def eligibleToSend (now : Int) (s : UdpSlot) : Bool :=
  (hasUnsentDgram s || needsResend now s) && decide (windowOf s < ACK_WINDOW_SIZE)

/-- Modelled from the spec: strict "better to send from" comparison between
two slots (spec section 4.3, fairness rule 2): smaller (sent − acked) window
first, ties broken by smaller niceness (0 before 1). -/
def betterSlot (a b : UdpSlot) : Bool :=
  decide (windowOf a < windowOf b) ||
    (decide (windowOf a = windowOf b) && decide (a.niceness < b.niceness))

/-- Modelled from the spec: scan a FIFO-ordered list and keep the first slot
that no later slot strictly beats (so full ties keep the earlier, FIFO-first
slot). -/
def pickMinWindow : List UdpSlot → Option UdpSlot
  | [] => none
  | s :: rest =>
    match pickMinWindow rest with
    | none => some s
    | some t => if betterSlot t s then some t else some s

/-- Modelled from the spec: getBestSlotToSend_unlocked (declared at
src/UdpServer.h lines 240-243: "picks the slot that is most caught up to its
ACKs; picks resends first, however").  Among the eligible slots of the active
list (in FIFO order): a slot needing a resend if any, otherwise the slot with
the smallest window, ties by niceness then FIFO order. -/
def getBestSlotToSend_unlocked (now : Int) (active : List UdpSlot) : Option UdpSlot :=
  match (active.filter (eligibleToSend now)).find? (needsResend now) with
  | some s => some s
  | none => pickMinWindow (active.filter (eligibleToSend now))

/-- Modelled from the spec: the per-slot backoff evolution (spec section 4.5):
doubled and capped at max_backoff_ms for niceness ≥ 1, held constant for
niceness 0. -/
def nextBackoff (s : UdpSlot) : Int :=
  if s.niceness = 0 then s.resendBackoffMs
  else min (2 * s.resendBackoffMs) s.maxBackoffMs

/-- Modelled from the spec: doSending_unlocked (declared at src/UdpServer.h
line 232): emit one datagram from the slot.  A due resend re-emits an already
sent datagram (bitmaps unchanged, backoff advanced, resend_count incremented);
otherwise the next unsent datagram is emitted, setting its bit in
sent_bitmap. -/
def doSending_unlocked (now : Int) (s : UdpSlot) : UdpSlot :=
  if needsResend now s then
    { s with resendCount := s.resendCount + 1,
             resendBackoffMs := nextBackoff s,
             nextResendAt := now + nextBackoff s }
  else
    match firstUnsent s with
    | some i => { s with sent := insert i s.sent,
                         nextResendAt := now + s.resendBackoffMs }
    | none => s

theorem betterSlot_eq_true_iff (a b : UdpSlot) :
    betterSlot a b = true ↔
      (windowOf a < windowOf b ∨ (windowOf a = windowOf b ∧ a.niceness < b.niceness)) := by
  simp [betterSlot]

theorem betterSlot_eq_false_iff (a b : UdpSlot) :
    betterSlot a b = false ↔
      ¬ (windowOf a < windowOf b ∨ (windowOf a = windowOf b ∧ a.niceness < b.niceness)) := by
  rw [← betterSlot_eq_true_iff]
  cases betterSlot a b <;> simp

theorem betterSlot_irrefl (a : UdpSlot) : betterSlot a a = false := by
  rw [betterSlot_eq_false_iff]
  omega

theorem betterSlot_asymm {a b : UdpSlot} (h : betterSlot a b = true) :
    betterSlot b a = false := by
  rw [betterSlot_eq_true_iff] at h
  rw [betterSlot_eq_false_iff]
  omega

theorem betterSlot_resolve {u s t : UdpSlot} (h1 : betterSlot u s = true)
    (h2 : betterSlot t s = false) : betterSlot u t = true := by
  rw [betterSlot_eq_true_iff] at h1 ⊢
  rw [betterSlot_eq_false_iff] at h2
  omega

theorem pickMinWindow_eq_none_iff (l : List UdpSlot) : pickMinWindow l = none ↔ l = [] := by
  cases l with
  | nil => simp [pickMinWindow]
  | cons s rest =>
    simp only [List.cons_ne_nil, iff_false]
    intro h
    simp only [pickMinWindow] at h
    cases hrest : pickMinWindow rest with
    | none =>
      rw [hrest] at h
      exact Option.noConfusion h
    | some t =>
      rw [hrest] at h
      have h2 : (if betterSlot t s = true then some t else some s) = none := h
      by_cases hts : betterSlot t s = true
      · rw [if_pos hts] at h2; exact Option.noConfusion h2
      · rw [if_neg hts] at h2; exact Option.noConfusion h2

/-- The slot kept by the FIFO minimum scan is in the list, no list element
strictly beats it, and every element ahead of it in the list is strictly
beaten by it (so ties keep the FIFO-first slot). -/
theorem pickMinWindow_spec :
    ∀ (l : List UdpSlot) (b : UdpSlot), pickMinWindow l = some b →
      b ∈ l ∧ (∀ t ∈ l, betterSlot t b = false) ∧
      ∃ l1 l2, l = l1 ++ b :: l2 ∧ ∀ t ∈ l1, betterSlot b t = true := by
  intro l
  induction l with
  | nil => intro b h; simp [pickMinWindow] at h
  | cons s rest ih =>
    intro b h
    simp only [pickMinWindow] at h
    cases hrest : pickMinWindow rest with
    | none =>
      rw [hrest] at h
      have hb : s = b := Option.some.inj h
      have hre : rest = [] := (pickMinWindow_eq_none_iff rest).mp hrest
      subst hb
      subst hre
      refine ⟨List.mem_singleton_self s, ?_, [], [], rfl, ?_⟩
      · intro t ht
        rw [List.mem_singleton] at ht
        subst ht
        exact betterSlot_irrefl t
      · intro t ht
        exact absurd ht (List.not_mem_nil t)
    | some t =>
      rw [hrest] at h
      have h2 : (if betterSlot t s = true then some t else some s) = some b := h
      obtain ⟨htmem, htmin, l1, l2, hdec, hfirst⟩ := ih t hrest
      by_cases hts : betterSlot t s = true
      · rw [if_pos hts] at h2
        have hb : t = b := Option.some.inj h2
        subst hb
        refine ⟨List.mem_cons_of_mem s htmem, ?_, s :: l1, l2, by rw [hdec]; rfl, ?_⟩
        · intro u hu
          rcases List.mem_cons.mp hu with hus | hur
          · subst hus; exact betterSlot_asymm hts
          · exact htmin u hur
        · intro u hu
          rcases List.mem_cons.mp hu with hus | hul
          · subst hus; exact hts
          · exact hfirst u hul
      · rw [if_neg hts] at h2
        have hb : s = b := Option.some.inj h2
        rw [← hb]
        have htsf : betterSlot t s = false := Bool.eq_false_iff.mpr hts
        refine ⟨List.mem_cons_self s rest, ?_, [], rest, rfl, ?_⟩
        · intro u hu
          rcases List.mem_cons.mp hu with hus | hur
          · rw [hus]; exact betterSlot_irrefl s
          · cases hcon : betterSlot u s with
            | false => rfl
            | true => exact absurd (htmin u hur) (by rw [betterSlot_resolve hcon htsf]; simp)
        · intro u hu
          exact absurd hu (List.not_mem_nil u)

/-- Claim C3: whenever the send scheduler picks a slot to emit a datagram
from, among the active slots it may send from (work pending, window below
ACK_WINDOW_SIZE) it picks one needing a resend if any exists; otherwise it
picks a slot with the smallest (sent − acked) window, ties broken by niceness
0 before niceness 1 and then by FIFO order in the active list. -/
theorem claim_C3_scheduler_policy (now : Int) (active : List UdpSlot) (b : UdpSlot)
    (hb : getBestSlotToSend_unlocked now active = some b) :
    b ∈ active ∧ eligibleToSend now b = true ∧
    ((∃ s ∈ active, eligibleToSend now s = true ∧ needsResend now s = true) →
      needsResend now b = true) ∧
    ((∀ s ∈ active, eligibleToSend now s = true → needsResend now s = false) →
      (∀ s ∈ active, eligibleToSend now s = true → betterSlot s b = false) ∧
      ∃ l1 l2, active.filter (eligibleToSend now) = l1 ++ b :: l2 ∧
        ∀ t ∈ l1, betterSlot b t = true) := by
  unfold getBestSlotToSend_unlocked at hb
  cases hf : (active.filter (eligibleToSend now)).find? (needsResend now) with
  | some s =>
    rw [hf] at hb
    have hb2 : s = b := Option.some.inj hb
    subst hb2
    have hsmem : s ∈ active.filter (eligibleToSend now) := List.mem_of_find?_eq_some hf
    have hsre : needsResend now s = true := List.find?_some hf
    rw [List.mem_filter] at hsmem
    refine ⟨hsmem.1, hsmem.2, fun _ => hsre, fun hall => ?_⟩
    exact absurd hsre (by rw [hall s hsmem.1 hsmem.2]; simp)
  | none =>
    rw [hf] at hb
    obtain ⟨hmem, hmin, l1, l2, hdec, hfirst⟩ := pickMinWindow_spec _ b hb
    have hmem2 := List.mem_filter.mp hmem
    have hnone := List.find?_eq_none.mp hf
    refine ⟨hmem2.1, hmem2.2, ?_, fun _ => ⟨?_, l1, l2, hdec, hfirst⟩⟩
    · rintro ⟨s, hs, hse, hsr⟩
      exact absurd hsr (by simp [hnone s (List.mem_filter.mpr ⟨hs, hse⟩)])
    · intro s hs hse
      exact hmin s (List.mem_filter.mpr ⟨hs, hse⟩)

/-- A concrete slot used to instantiate theorems on explicit inputs: one
datagram of three already sent, nothing acked yet, no resend due before
time 100. -/
def sampleSlot : UdpSlot :=
  { transId := 1, incoming := false, niceness := 0, sendDgramCount := 3,
    recvDgramCount := 0, sent := {0}, acked := ∅, received := ∅, acksToSend := ∅,
    recvBuf := ∅, resendBackoffMs := 30, maxBackoffMs := 2000, nextResendAt := 100,
    timeoutMs := 60000, overallDeadline := 60000, resendCount := 0, maxResends := -1,
    errno := 0 }

/-- Witness for claim C3: the scheduler applied to the concrete one-slot
active list picks that slot, which is a member and eligible. -/
theorem claim_C3_scheduler_policy_witness :
    sampleSlot ∈ [sampleSlot] ∧ eligibleToSend 0 sampleSlot = true :=
  ⟨(claim_C3_scheduler_policy 0 [sampleSlot] sampleSlot (by decide)).1,
   (claim_C3_scheduler_policy 0 [sampleSlot] sampleSlot (by decide)).2.1⟩

/-- Modelled from the spec: receiving an ACK datagram sets the matching bits
in the slot's acked_bitmap (spec section 4.4); only bits of datagrams the slot
actually sent are meaningful. -/
def applyAck (tid : Nat) (bits : Finset Nat) (s : UdpSlot) : UdpSlot :=
  if s.transId = tid then { s with acked := s.acked ∪ (bits ∩ s.sent) } else s

/-- Modelled from the spec: a data datagram is routed to the slot whose
transaction id it carries and stored there (spec section 4.4). -/
def applyData (tid seq payload : Nat) (s : UdpSlot) : UdpSlot :=
  if s.transId = tid then readDataDgram s seq payload else s

/-- Modelled from the spec: the resend part of the periodic tick (spec section
4.5): a due resend re-emits the datagram, advances the backoff and increments
resend_count; the bitmaps do not change. -/
def bumpResend (now : Int) (s : UdpSlot) : UdpSlot :=
  if needsResend now s then
    { s with resendCount := s.resendCount + 1,
             resendBackoffMs := nextBackoff s,
             nextResendAt := now + nextBackoff s }
  else s

/-- Modelled from the spec: the failure checks of the periodic tick (spec
section 4.5): "If resend_count > max_resends (and max_resends ≥ 0), fail the
slot with ENOACK.  If now > overall_deadline, fail the slot with ETIMEDOUT.
Infinite-timeout sentinel disables the overall deadline."  (src/UdpServer.h
lines 84-92 document the ENOACK behaviour of sendRequest's maxResends.) -/
def failCheck (now : Int) (s : UdpSlot) : UdpSlot :=
  if 0 ≤ s.maxResends ∧ s.maxResends < s.resendCount then { s with errno := ENOACK }
  else if s.timeoutMs ≠ udpserver_sendrequest_infinite_timeout ∧ s.overallDeadline < now then
    { s with errno := ETIMEDOUT }
  else s

/-- Modelled from the spec: the per-slot work of readTimeoutPoll (declared at
src/UdpServer.h line 206): the resend pass followed by the no-ACK and
overall-deadline failure checks. -/
def timeoutCheck (now : Int) (s : UdpSlot) : UdpSlot := failCheck now (bumpResend now s)

/-- Modelled from the spec: the transitions of the transport that change the
active list (spec sections 4.3-4.5): slot creation (bitmaps start empty), one
datagram emission chosen by the scheduler, ACK receipt, data receipt, the
periodic tick, and slot destruction. -/
inductive UdpStep : List UdpSlot → List UdpSlot → Prop where
  | create (l : List UdpSlot) (s : UdpSlot) (hsent : s.sent = ∅) (hacked : s.acked = ∅) :
      UdpStep l (l ++ [s])
  | send (now : Int) (l1 l2 : List UdpSlot) (b : UdpSlot)
      (hpick : getBestSlotToSend_unlocked now (l1 ++ b :: l2) = some b) :
      UdpStep (l1 ++ b :: l2) (l1 ++ doSending_unlocked now b :: l2)
  | ack (l : List UdpSlot) (tid : Nat) (bits : Finset Nat) :
      UdpStep l (l.map (applyAck tid bits))
  | recvData (l : List UdpSlot) (tid seq payload : Nat) :
      UdpStep l (l.map (applyData tid seq payload))
  | timer (l : List UdpSlot) (now : Int) :
      UdpStep l (l.map (timeoutCheck now))
  | destroy (l1 l2 : List UdpSlot) (b : UdpSlot) :
      UdpStep (l1 ++ b :: l2) (l1 ++ l2)

/-- An active list reachable from the initial (empty) transport state. -/
def ReachableActiveList (l : List UdpSlot) : Prop :=
  Relation.ReflTransGen UdpStep [] l

theorem getBest_mem_eligible {now : Int} {l : List UdpSlot} {b : UdpSlot}
    (hb : getBestSlotToSend_unlocked now l = some b) :
    b ∈ l ∧ eligibleToSend now b = true := by
  unfold getBestSlotToSend_unlocked at hb
  cases hf : (l.filter (eligibleToSend now)).find? (needsResend now) with
  | some s =>
    rw [hf] at hb
    have hsb : s = b := Option.some.inj hb
    have hsmem : s ∈ l.filter (eligibleToSend now) := List.mem_of_find?_eq_some hf
    rw [hsb] at hsmem
    exact List.mem_filter.mp hsmem
  | none =>
    rw [hf] at hb
    exact List.mem_filter.mp (pickMinWindow_spec _ b hb).1

theorem getBest_window_lt {now : Int} {l : List UdpSlot} {b : UdpSlot}
    (hb : getBestSlotToSend_unlocked now l = some b) :
    windowOf b < ACK_WINDOW_SIZE := by
  have he := (getBest_mem_eligible hb).2
  simp only [eligibleToSend, Bool.and_eq_true, decide_eq_true_eq] at he
  exact he.2

theorem applyAck_window_le (tid : Nat) (bits : Finset Nat) (s : UdpSlot) :
    windowOf (applyAck tid bits s) ≤ windowOf s := by
  unfold applyAck
  split
  · have hcard : s.acked.card ≤ (s.acked ∪ (bits ∩ s.sent)).card :=
      Finset.card_le_card Finset.subset_union_left
    simp only [windowOf]
    omega
  · exact le_refl _

theorem applyData_window_eq (tid seq payload : Nat) (s : UdpSlot) :
    windowOf (applyData tid seq payload s) = windowOf s := by
  unfold applyData readDataDgram
  split <;> rfl

theorem timeoutCheck_window_eq (now : Int) (s : UdpSlot) :
    windowOf (timeoutCheck now s) = windowOf s := by
  unfold timeoutCheck failCheck bumpResend
  split <;> split <;> first | rfl | (split <;> rfl)

theorem doSending_window_le {now : Int} {s : UdpSlot}
    (hw : windowOf s < ACK_WINDOW_SIZE) :
    windowOf (doSending_unlocked now s) ≤ ACK_WINDOW_SIZE := by
  simp only [windowOf] at hw
  unfold doSending_unlocked
  split
  · simp only [windowOf]; omega
  · cases hfu : firstUnsent s with
    | none => simp only [windowOf]; omega
    | some i =>
      have hnotmem : i ∉ s.sent := by
        have := List.find?_some hfu
        simpa using this
      simp only [windowOf, Finset.card_insert_of_not_mem hnotmem]
      omega

theorem windowInv_step {l l2 : List UdpSlot} (hstep : UdpStep l l2)
    (hinv : ∀ s ∈ l, windowOf s ≤ ACK_WINDOW_SIZE) :
    ∀ s ∈ l2, windowOf s ≤ ACK_WINDOW_SIZE := by
  cases hstep with
  | create l0 s0 hsent hacked =>
    intro t ht
    rcases List.mem_append.mp ht with h | h
    · exact hinv t h
    · rw [List.mem_singleton] at h
      rw [h]
      simp [windowOf, hsent, hacked]
  | send now l1 lr b hpick =>
    intro t ht
    rcases List.mem_append.mp ht with h | h
    · exact hinv t (List.mem_append.mpr (Or.inl h))
    · rcases List.mem_cons.mp h with h | h
      · rw [h]
        exact doSending_window_le (getBest_window_lt hpick)
      · exact hinv t (List.mem_append.mpr (Or.inr (List.mem_cons_of_mem b h)))
  | ack l0 tid bits =>
    intro t ht
    obtain ⟨u, hu, hueq⟩ := List.mem_map.mp ht
    rw [← hueq]
    exact le_trans (applyAck_window_le tid bits u) (hinv u hu)
  | recvData l0 tid seq payload =>
    intro t ht
    obtain ⟨u, hu, hueq⟩ := List.mem_map.mp ht
    rw [← hueq, applyData_window_eq]
    exact hinv u hu
  | timer l0 now =>
    intro t ht
    obtain ⟨u, hu, hueq⟩ := List.mem_map.mp ht
    rw [← hueq, timeoutCheck_window_eq]
    exact hinv u hu
  | destroy l1 lr b =>
    intro t ht
    rcases List.mem_append.mp ht with h | h
    · exact hinv t (List.mem_append.mpr (Or.inl h))
    · exact hinv t (List.mem_append.mpr (Or.inr (List.mem_cons_of_mem b h)))

/-- Claim C2: in every reachable state, every active slot's number of
sent-but-unacked datagrams, popcount(sent_bitmap) − popcount(acked_bitmap)
(that is `windowOf`), is at most ACK_WINDOW_SIZE; and the send scheduler never
picks a slot whose outstanding window already equals (or exceeds)
ACK_WINDOW_SIZE. -/
theorem claim_C2_ack_window_bound :
    (∀ l, ReachableActiveList l →
      ∀ s ∈ l, s.sent.card - s.acked.card ≤ ACK_WINDOW_SIZE) ∧
    (∀ (now : Int) (l : List UdpSlot) (b : UdpSlot),
      getBestSlotToSend_unlocked now l = some b →
        windowOf b < ACK_WINDOW_SIZE) := by
  constructor
  · intro l hreach
    induction hreach with
    | refl => intro s hs; exact absurd hs (List.not_mem_nil s)
    | tail hsteps hstep ih => exact windowInv_step hstep ih
  · intro now l b hb
    exact getBest_window_lt hb

/-- A concrete freshly created slot: nothing sent or acked yet. -/
def freshSlot : UdpSlot :=
  { transId := 2, incoming := false, niceness := 1, sendDgramCount := 2,
    recvDgramCount := 0, sent := ∅, acked := ∅, received := ∅, acksToSend := ∅,
    recvBuf := ∅, resendBackoffMs := 30, maxBackoffMs := 2000, nextResendAt := 100,
    timeoutMs := 60000, overallDeadline := 60000, resendCount := 0, maxResends := -1,
    errno := 0 }

/-- Witness for claim C2: the invariant evaluated on the concrete reachable
one-slot state, and the scheduler bound evaluated on a concrete pick. -/
theorem claim_C2_ack_window_bound_witness :
    freshSlot.sent.card - freshSlot.acked.card ≤ ACK_WINDOW_SIZE ∧
    windowOf sampleSlot < ACK_WINDOW_SIZE :=
  ⟨claim_C2_ack_window_bound.1 [freshSlot]
      (Relation.ReflTransGen.single (UdpStep.create [] freshSlot rfl rfl))
      freshSlot (List.mem_singleton_self freshSlot),
   claim_C2_ack_window_bound.2 0 [sampleSlot] sampleSlot (by decide)⟩

/-- Modelled from the spec: readTimeoutPoll over the whole active list
(declared at src/UdpServer.h line 206).  Every active slot goes through the
tick's resend and failure checks; "Failed slots are moved to the callback
list with error set" (spec section 4.5).  Returns (still active, moved to the
callback list). -/
def readTimeoutPoll (now : Int) (active : List UdpSlot) : List UdpSlot × List UdpSlot :=
  ((active.map (timeoutCheck now)).filter (fun s => decide (s.errno = 0)),
   (active.map (timeoutCheck now)).filter (fun s => decide (s.errno ≠ 0)))

theorem bumpResend_fields (now : Int) (s : UdpSlot) :
    (bumpResend now s).maxResends = s.maxResends ∧
    (bumpResend now s).timeoutMs = s.timeoutMs ∧
    (bumpResend now s).overallDeadline = s.overallDeadline ∧
    (bumpResend now s).errno = s.errno ∧
    s.resendCount ≤ (bumpResend now s).resendCount := by
  unfold bumpResend
  split
  · exact ⟨rfl, rfl, rfl, rfl, by simp⟩
  · exact ⟨rfl, rfl, rfl, rfl, le_refl _⟩

theorem failCheck_noack {now : Int} {s : UdpSlot} (h1 : 0 ≤ s.maxResends)
    (h2 : s.maxResends < s.resendCount) : (failCheck now s).errno = ENOACK := by
  unfold failCheck
  split
  · rfl
  · rename_i hcon
    exact absurd ⟨h1, h2⟩ hcon

theorem failCheck_unlimited {now : Int} {s : UdpSlot} (h : s.maxResends = -1) :
    (failCheck now s).errno = s.errno ∨
    ((failCheck now s).errno = ETIMEDOUT ∧
      s.timeoutMs ≠ udpserver_sendrequest_infinite_timeout ∧ s.overallDeadline < now) := by
  unfold failCheck
  split
  · rename_i hcon
    exact absurd hcon.1 (by rw [h]; decide)
  · split
    · rename_i hc2
      exact Or.inr ⟨rfl, hc2⟩
    · exact Or.inl rfl

/-- Claim C4: during the timer pass, a slot with max_resends ≥ 0 whose
resend_count exceeds max_resends is failed with the no-ACK error ENOACK and
moved to the callback list (through which its callback is fired with that
error set); with max_resends = −1 (unlimited) the no-ACK failure never
occurs: the tick either leaves the slot unfailed or fails it with ETIMEDOUT,
and ETIMEDOUT happens exactly because the (non-disabled) overall deadline has
passed. -/
theorem claim_C4_timer_failure_errors (now : Int) (s : UdpSlot) (active : List UdpSlot) :
    (0 ≤ s.maxResends → s.maxResends < s.resendCount →
      (timeoutCheck now s).errno = ENOACK ∧
      (s ∈ active → timeoutCheck now s ∈ (readTimeoutPoll now active).2)) ∧
    (s.maxResends = -1 → s.errno = 0 →
      (timeoutCheck now s).errno = 0 ∨
      ((timeoutCheck now s).errno = ETIMEDOUT ∧
        s.timeoutMs ≠ udpserver_sendrequest_infinite_timeout ∧ s.overallDeadline < now)) := by
  obtain ⟨hmr, htm, hod, herr, hrc⟩ := bumpResend_fields now s
  constructor
  · intro h1 h2
    have henoack : (timeoutCheck now s).errno = ENOACK := by
      unfold timeoutCheck
      exact failCheck_noack (by rw [hmr]; exact h1) (by rw [hmr]; omega)
    refine ⟨henoack, fun hmem => ?_⟩
    unfold readTimeoutPoll
    refine List.mem_filter.mpr ⟨List.mem_map.mpr ⟨s, hmem, rfl⟩, ?_⟩
    rw [henoack]
    decide
  · intro h herr0
    have := @failCheck_unlimited now (bumpResend now s) (by rw [hmr]; exact h)
    unfold timeoutCheck
    rcases this with hsame | htimed
    · exact Or.inl (by rw [hsame, herr, herr0])
    · exact Or.inr ⟨htimed.1, by rw [← htm]; exact htimed.2.1, by rw [← hod]; exact htimed.2.2⟩

/-- Witness for claim C4: a concrete slot with max_resends 2 and resend_count
3 is failed with ENOACK by the tick. -/
theorem claim_C4_timer_failure_errors_witness :
    (timeoutCheck 0 { sampleSlot with maxResends := 2, resendCount := 3 }).errno = ENOACK :=
  ((claim_C4_timer_failure_errors 0 { sampleSlot with maxResends := 2, resendCount := 3 }
      []).1 (by decide) (by decide)).1

/-- The events a reader of the transport can observe about a slot's
completion: its callback being invoked, and destroySlot being called on it. -/
inductive CbEvent where
  | invoke (tid : Nat)
  | destroy (tid : Nat)
deriving DecidableEq

/-- Modelled from the spec: the callback pass (makeCallbacks, declared at
src/UdpServer.h line 149, together with destroySlot, line 137): it walks the
callback list and, for each slot, invokes the slot's completion callback and
then immediately destroys the slot ("we call destroySlot(slot) after calling
the callback", src/UdpServer.h line 69). -/
def makeCallbacksTrace : List UdpSlot → List CbEvent
  | [] => []
  | s :: rest => CbEvent.invoke s.transId :: CbEvent.destroy s.transId ::
      makeCallbacksTrace rest

theorem makeCallbacksTrace_count_invoke (l : List UdpSlot) (t : Nat) :
    (makeCallbacksTrace l).count (CbEvent.invoke t) = (l.map UdpSlot.transId).count t := by
  induction l with
  | nil => rfl
  | cons s rest ih =>
    simp only [makeCallbacksTrace, List.map_cons, List.count_cons, ih]
    simp

theorem makeCallbacksTrace_count_destroy (l : List UdpSlot) (t : Nat) :
    (makeCallbacksTrace l).count (CbEvent.destroy t) = (l.map UdpSlot.transId).count t := by
  induction l with
  | nil => rfl
  | cons s rest ih =>
    simp only [makeCallbacksTrace, List.map_cons, List.count_cons, ih]
    simp

theorem makeCallbacksTrace_adjacent {l : List UdpSlot} {s : UdpSlot} (hs : s ∈ l) :
    ∃ k, (makeCallbacksTrace l)[k]? = some (CbEvent.invoke s.transId) ∧
         (makeCallbacksTrace l)[k + 1]? = some (CbEvent.destroy s.transId) := by
  induction l with
  | nil => exact absurd hs (List.not_mem_nil s)
  | cons a rest ih =>
    rcases List.mem_cons.mp hs with h | h
    · rw [h]
      refine ⟨0, ?_, ?_⟩ <;> simp [makeCallbacksTrace]
    · obtain ⟨k, h1, h2⟩ := ih h
      refine ⟨k + 2, ?_, ?_⟩
      · simpa [makeCallbacksTrace] using h1
      · simpa [makeCallbacksTrace] using h2

/-- Claim C1: in one callback pass over a callback list of distinct slots,
every slot's completion callback is invoked exactly once, the slot is
destroyed exactly once, and the destruction immediately follows the
callback invocation; so no slot's callback runs twice and no slot is
destroyed with its pending callback uninvoked. -/
theorem claim_C1_callback_once_then_destroyed (l : List UdpSlot)
    (hnd : (l.map UdpSlot.transId).Nodup) (s : UdpSlot) (hs : s ∈ l) :
    (makeCallbacksTrace l).count (CbEvent.invoke s.transId) = 1 ∧
    (makeCallbacksTrace l).count (CbEvent.destroy s.transId) = 1 ∧
    ∃ k, (makeCallbacksTrace l)[k]? = some (CbEvent.invoke s.transId) ∧
         (makeCallbacksTrace l)[k + 1]? = some (CbEvent.destroy s.transId) := by
  have hmem : s.transId ∈ l.map UdpSlot.transId := List.mem_map_of_mem UdpSlot.transId hs
  refine ⟨?_, ?_, makeCallbacksTrace_adjacent hs⟩
  · rw [makeCallbacksTrace_count_invoke]
    exact List.count_eq_one_of_mem hnd hmem
  · rw [makeCallbacksTrace_count_destroy]
    exact List.count_eq_one_of_mem hnd hmem

/-- Witness for claim C1: the callback pass over a concrete two-slot callback
list invokes and destroys the first slot exactly once, adjacently. -/
theorem claim_C1_callback_once_then_destroyed_witness :
    (makeCallbacksTrace [sampleSlot, freshSlot]).count
        (CbEvent.invoke sampleSlot.transId) = 1 ∧
    (makeCallbacksTrace [sampleSlot, freshSlot]).count
        (CbEvent.destroy sampleSlot.transId) = 1 ∧
    ∃ k, (makeCallbacksTrace [sampleSlot, freshSlot])[k]? =
            some (CbEvent.invoke sampleSlot.transId) ∧
         (makeCallbacksTrace [sampleSlot, freshSlot])[k + 1]? =
            some (CbEvent.destroy sampleSlot.transId) :=
  claim_C1_callback_once_then_destroyed [sampleSlot, freshSlot] (by decide)
    sampleSlot (by decide)

/-- Modelled from the spec: getTransId_unlocked (declared at src/UdpServer.h
line 226) over the counter m_nextTransId (line 174): hand out the current
counter value masked to a positive 32-bit value (% 2^31) and advance the
counter (spec section 4.3 step 1: "assign new transaction-id from the
monotonic counter (masked to positive 32-bit)"). -/
def getTransId_unlocked (nextTransId : Nat) : Nat × Nat :=
  (nextTransId % 2147483648, nextTransId + 1)

/-- The transaction id handed out by the (n+1)-th call to getTransId_unlocked
when the counter holds c; at process start the counter is 0 ("if server is
restarted this will go back to 0", src/UdpServer.h line 223). -/
def transIdOfCall (c : Nat) : Nat → Nat
  | 0 => (getTransId_unlocked c).1
  | n + 1 => transIdOfCall (getTransId_unlocked c).2 n

theorem transIdOfCall_eq (c n : Nat) : transIdOfCall c n = (c + n) % 2147483648 := by
  induction n generalizing c with
  | zero => simp [transIdOfCall, getTransId_unlocked]
  | succ n ih =>
    simp only [transIdOfCall, getTransId_unlocked]
    rw [ih]
    omega

/-- Modelled from the spec: allocation of an incoming slot on the first
request datagram (spec section 4.4): recv_dgram_count comes from the header's
total, the datagram is stored and ACK-marked, and the transaction id is taken
from the received datagram. -/
def mkIncomingSlot (dg : UdpDgram) (now : Int) : UdpSlot :=
  { transId := dg.transId, incoming := true, niceness := 1, sendDgramCount := 0,
    recvDgramCount := dg.totalDgrams, sent := ∅, acked := ∅,
    received := {dg.seq}, acksToSend := {dg.seq}, recvBuf := {(dg.seq, dg.payload)},
    resendBackoffMs := 30, maxBackoffMs := 2000, nextResendAt := now + 30,
    timeoutMs := 60000, overallDeadline := now + 60000, resendCount := 0,
    maxResends := -1, errno := 0 }

/-- Claim C6: across one process lifetime the transaction id assigned to a
later sendRequest call is strictly greater than that of an earlier one (the
counter is monotonic, masked to a positive 32-bit value, as long as the
counter has not wrapped past 2^31); an incoming slot instead takes its
transaction id from the received datagram. -/
theorem claim_C6_transaction_id_monotonic (i j : Nat) (dg : UdpDgram) (now : Int)
    (hij : i < j) (hw : j < 2147483648) :
    transIdOfCall 0 i < transIdOfCall 0 j ∧
    (mkIncomingSlot dg now).transId = dg.transId := by
  constructor
  · rw [transIdOfCall_eq, transIdOfCall_eq]
    omega
  · rfl

/-- A concrete received datagram. -/
def sampleDgram : UdpDgram :=
  { transId := 7, seq := 0, totalDgrams := 2, payload := 42 }

/-- Witness for claim C6: the ids of the 2nd and 3rd sendRequest calls are
strictly increasing, and a concrete incoming slot carries the datagram's
transaction id. -/
theorem claim_C6_transaction_id_monotonic_witness :
    transIdOfCall 0 1 < transIdOfCall 0 2 ∧
    (mkIncomingSlot sampleDgram 0).transId = sampleDgram.transId :=
  claim_C6_transaction_id_monotonic 1 2 sampleDgram 0 (by decide) (by decide)

/-- Modelled from the spec: the slot created by sendRequest (declared at
src/UdpServer.h lines 95-107): direction outgoing, fresh bitmaps, overall
deadline now + timeout, and the caller's niceness and maxResends (spec
section 4.3 step 1). -/
def mkOutgoingSlot (now : Int) (tid nice : Nat) (tmo mr : Int)
    (dgramCount : Nat) : UdpSlot :=
  { transId := tid, incoming := false, niceness := nice, sendDgramCount := dgramCount,
    recvDgramCount := 0, sent := ∅, acked := ∅, received := ∅, acksToSend := ∅,
    recvBuf := ∅, resendBackoffMs := 30, maxBackoffMs := 2000,
    nextResendAt := now + 30, timeoutMs := tmo, overallDeadline := now + tmo,
    resendCount := 0, maxResends := mr, errno := 0 }

theorem failCheck_preserves (now : Int) (s : UdpSlot) :
    (failCheck now s).timeoutMs = s.timeoutMs ∧
    (failCheck now s).maxResends = s.maxResends := by
  unfold failCheck
  split
  · exact ⟨rfl, rfl⟩
  · split
    · exact ⟨rfl, rfl⟩
    · exact ⟨rfl, rfl⟩

theorem timeoutCheck_sentinel_no_etimedout {now : Int} {s : UdpSlot}
    (hsent : s.timeoutMs = udpserver_sendrequest_infinite_timeout)
    (herr : s.errno ≠ ETIMEDOUT) :
    (timeoutCheck now s).timeoutMs = udpserver_sendrequest_infinite_timeout ∧
    (timeoutCheck now s).errno ≠ ETIMEDOUT := by
  obtain ⟨hmr, htm, hod, herrb, hrc⟩ := bumpResend_fields now s
  constructor
  · unfold timeoutCheck
    rw [(failCheck_preserves now (bumpResend now s)).1, htm, hsent]
  · unfold timeoutCheck failCheck
    split
    · simp [ENOACK, ETIMEDOUT]
    · split
      · rename_i hc2
        rw [htm, hsent] at hc2
        exact absurd rfl hc2.1
      · rw [herrb]
        exact herr

theorem foldl_timeoutCheck_sentinel {s : UdpSlot}
    (hsent : s.timeoutMs = udpserver_sendrequest_infinite_timeout)
    (herr : s.errno ≠ ETIMEDOUT) (nows : List Int) :
    (nows.foldl (fun t n => timeoutCheck n t) s).errno ≠ ETIMEDOUT := by
  induction nows generalizing s with
  | nil => exact herr
  | cons n rest ih =>
    have h := @timeoutCheck_sentinel_no_etimedout n s hsent herr
    simp only [List.foldl_cons]
    exact ih h.1 h.2

/-- Claim C8: a sendRequest issued with the infinite-timeout sentinel
(src/UdpServer.h line 40) never has its slot failed with the overall-deadline
timeout error: across any sequence of timer passes the slot's errno never
becomes ETIMEDOUT, because the sentinel disables the overall-deadline
check. -/
theorem claim_C8_infinite_timeout_never_etimedout (now : Int) (tid nice : Nat)
    (mr : Int) (dc : Nat) (nows : List Int) :
    (nows.foldl (fun t n => timeoutCheck n t)
        (mkOutgoingSlot now tid nice udpserver_sendrequest_infinite_timeout mr dc)).errno
      ≠ ETIMEDOUT := by
  apply foldl_timeoutCheck_sentinel
  · rfl
  · simp [mkOutgoingSlot, ETIMEDOUT]

/-- Witness for claim C8: a concrete sentinel-timeout slot put through one
concrete timer pass does not carry ETIMEDOUT. -/
theorem claim_C8_infinite_timeout_never_etimedout_witness :
    ([(1000000 : Int)].foldl (fun t n => timeoutCheck n t)
        (mkOutgoingSlot 0 3 1 udpserver_sendrequest_infinite_timeout (-1) 1)).errno
      ≠ ETIMEDOUT :=
  claim_C8_infinite_timeout_never_etimedout 0 3 1 (-1) 1 [1000000]

/-- From src/UdpServer.h line 104: sendRequest's default timeout argument. -/
def sendRequest_default_timeout : Int := 60000

/-- From src/UdpServer.h line 105: sendRequest's default niceness argument. -/
def sendRequest_default_niceness : Nat := 1

/-- From src/UdpServer.h line 107: sendRequest's default maxResends
argument. -/
def sendRequest_default_maxResends : Int := -1

/-- sendRequest invoked with the trailing optional arguments omitted creates
its slot with the header's default values. -/
def mkOutgoingSlotDefaults (now : Int) (tid dc : Nat) : UdpSlot :=
  mkOutgoingSlot now tid sendRequest_default_niceness sendRequest_default_timeout
    sendRequest_default_maxResends dc

theorem timeoutCheck_unlimited_no_enoack {now : Int} {s : UdpSlot}
    (hmr : s.maxResends = -1) (herr : s.errno ≠ ENOACK) :
    (timeoutCheck now s).maxResends = -1 ∧ (timeoutCheck now s).errno ≠ ENOACK := by
  obtain ⟨hmrb, htm, hod, herrb, hrc⟩ := bumpResend_fields now s
  have hmrb2 : (bumpResend now s).maxResends = -1 := by rw [hmrb, hmr]
  constructor
  · unfold timeoutCheck
    rw [(failCheck_preserves now (bumpResend now s)).2, hmrb, hmr]
  · unfold timeoutCheck failCheck
    split
    · rename_i hcon
      rw [hmrb2] at hcon
      exact absurd hcon.1 (by decide)
    · split
      · simp [ENOACK, ETIMEDOUT]
      · rw [herrb]
        exact herr

theorem foldl_timeoutCheck_unlimited {s : UdpSlot}
    (hmr : s.maxResends = -1) (herr : s.errno ≠ ENOACK) (nows : List Int) :
    (nows.foldl (fun t n => timeoutCheck n t) s).errno ≠ ENOACK := by
  induction nows generalizing s with
  | nil => exact herr
  | cons n rest ih =>
    have h := @timeoutCheck_unlimited_no_enoack n s hmr herr
    simp only [List.foldl_cons]
    exact ih h.1 h.2

/-- Claim C9: a sendRequest call that omits the trailing optional arguments
creates its slot with the default overall timeout of 60000 ms (overall
deadline now + 60000), default niceness 1, and default maxResends −1; the −1
means unlimited resends, so across any sequence of timer passes the slot is
never failed with the no-ACK error and only a reply, error reply,
cancellation, shutdown or the overall timeout can terminate it. -/
theorem claim_C9_sendRequest_defaults (now : Int) (tid dc : Nat) (nows : List Int) :
    (mkOutgoingSlotDefaults now tid dc).overallDeadline = now + 60000 ∧
    (mkOutgoingSlotDefaults now tid dc).timeoutMs = 60000 ∧
    (mkOutgoingSlotDefaults now tid dc).niceness = 1 ∧
    (mkOutgoingSlotDefaults now tid dc).maxResends = -1 ∧
    (nows.foldl (fun t n => timeoutCheck n t)
        (mkOutgoingSlotDefaults now tid dc)).errno ≠ ENOACK := by
  refine ⟨rfl, rfl, rfl, rfl, ?_⟩
  apply foldl_timeoutCheck_unlimited
  · rfl
  · simp [mkOutgoingSlotDefaults, mkOutgoingSlot, ENOACK]

/-- Claim C7: receiving a data datagram whose sequence bit is already set
changes no slot state other than re-marking the corresponding ACK: processing
the same data datagram twice yields exactly the slot state of processing it
once (the re-ACK marking included), so duplicate receipt is idempotent. -/
theorem claim_C7_duplicate_receipt_idempotent (s : UdpSlot) (seq payload : Nat) :
    readDataDgram (readDataDgram s seq payload) seq payload = readDataDgram s seq payload ∧
    (readDataDgram (readDataDgram s seq payload) seq payload).acksToSend =
      insert seq s.acksToSend := by
  constructor
  · simp [readDataDgram]
  · simp [readDataDgram]

/-- Witness for claim C9: the defaulted slot's concrete field values and its
errno after one concrete timer pass. -/
theorem claim_C9_sendRequest_defaults_witness :
    (mkOutgoingSlotDefaults 0 3 2).overallDeadline = 0 + 60000 ∧
    (mkOutgoingSlotDefaults 0 3 2).timeoutMs = 60000 ∧
    (mkOutgoingSlotDefaults 0 3 2).niceness = 1 ∧
    (mkOutgoingSlotDefaults 0 3 2).maxResends = -1 ∧
    ([(1000000 : Int)].foldl (fun t n => timeoutCheck n t)
        (mkOutgoingSlotDefaults 0 3 2)).errno ≠ ENOACK :=
  claim_C9_sendRequest_defaults 0 3 2 [1000000]

/-- Modelled from the spec: the parts of the UdpServer state the slot-table
claims need: the fixed capacity m_maxSlots and the slots in use
(src/UdpServer.h lines 296-297) and the m_isShuttingDown flag (line 274). -/
structure SrvState where
  maxSlots : Nat
  slots : List UdpSlot
  isShuttingDown : Bool
deriving DecidableEq

/-- The slot table is full: getEmptyUdpSlot_unlocked (declared at
src/UdpServer.h line 300) finds no available slot. -/
def tableFull (st : SrvState) : Bool := decide (st.maxSlots ≤ st.slots.length)

/-- Modelled from the spec: sendRequest (declared at src/UdpServer.h lines
95-107): allocate an outgoing slot; when all max_slots slots are in use it
fails, returning false with the no-slots error set and changing nothing
(spec section 4.2: "new outgoing requests fail with a 'no slots' error").
The result is (success, g_errno, new state). -/
def sendRequest (st : SrvState) (now : Int) (tid nice : Nat) (tmo mr : Int)
    (dc : Nat) : Bool × Int × SrvState :=
  if tableFull st then (false, ENOSLOTS, st)
  else (true, 0, { st with slots := st.slots ++ [mkOutgoingSlot now tid nice tmo mr dc] })

/-- Modelled from the spec: getUdpSlot_unlocked (declared at src/UdpServer.h
line 307): look the datagram's key (transaction id and direction; the
endpoint is fixed in this model) up among the slots in use. -/
def findSlot (slots : List UdpSlot) (tid : Nat) (inc : Bool) : Option UdpSlot :=
  slots.find? (fun s => decide (s.transId = tid) && (s.incoming == inc))

/-- What the receive path did with an incoming datagram. -/
inductive RecvOutcome where
  | storedExisting
  | newSlotCreated
  | droppedFull
  | errorReplyClosed (errnum : Int)
deriving DecidableEq

/-- Modelled from the spec: the request-data branch of readSock (declared at
src/UdpServer.h line 248): a datagram for an existing incoming slot is stored
there; with no matching slot, during shutdown the transport answers new
requests with an error reply (src/UdpServer.h lines 141-142), on a full table
the datagram is dropped silently with no state change and no reply (spec
section 4.2: "new incoming dgrams are dropped silently (peer will
retransmit)"), and otherwise a fresh incoming slot is allocated carrying the
datagram's transaction id. -/
def readSock (st : SrvState) (dg : UdpDgram) (now : Int) : SrvState × RecvOutcome :=
  match findSlot st.slots dg.transId true with
  | some _ =>
    ({ st with slots := st.slots.map (fun s =>
        if s.transId = dg.transId ∧ s.incoming = true then
          readDataDgram s dg.seq dg.payload
        else s) },
     RecvOutcome.storedExisting)
  | none =>
    if st.isShuttingDown then (st, RecvOutcome.errorReplyClosed ECLOSED)
    else if tableFull st then (st, RecvOutcome.droppedFull)
    else ({ st with slots := st.slots ++ [mkIncomingSlot dg now] },
          RecvOutcome.newSlotCreated)

/-- Claim C5: when all max_slots slots are in use, a sendRequest fails,
returning false with the table-full / no-slots error and leaving the state
(every existing slot included) unchanged, and an arriving incoming datagram
that would need a fresh slot is dropped silently: same state, no reply. -/
theorem claim_C5_table_full_behaviour (st : SrvState) (now : Int) (tid nice : Nat)
    (tmo mr : Int) (dc : Nat) (dg : UdpDgram)
    (hfull : st.slots.length = st.maxSlots) :
    sendRequest st now tid nice tmo mr dc = (false, ENOSLOTS, st) ∧
    (st.isShuttingDown = false → findSlot st.slots dg.transId true = none →
      readSock st dg now = (st, RecvOutcome.droppedFull)) := by
  have hf : tableFull st = true := by
    simp only [tableFull, decide_eq_true_eq]
    omega
  constructor
  · simp [sendRequest, hf]
  · intro hsd hnone
    unfold readSock
    rw [hnone, hsd, hf]
    rfl

/-- A concrete server state whose single-slot table is full. -/
def fullState : SrvState :=
  { maxSlots := 1, slots := [sampleSlot], isShuttingDown := false }

/-- Witness for claim C5: on the concrete full table, sendRequest fails with
ENOSLOTS and a fresh incoming datagram is dropped with no state change. -/
theorem claim_C5_table_full_behaviour_witness :
    sendRequest fullState 0 9 1 60000 (-1) 1 = (false, ENOSLOTS, fullState) ∧
    readSock fullState sampleDgram 0 = (fullState, RecvOutcome.droppedFull) := by
  have h := claim_C5_table_full_behaviour fullState 0 9 1 60000 (-1) 1 sampleDgram rfl
  exact ⟨h.1, h.2 rfl (by decide)⟩

/-- Has the incoming request been fully received (all recv_dgram_count
datagram bits set, the count being known and nonzero)? -/
def fullyReceived (s : UdpSlot) : Bool :=
  decide (s.recvDgramCount ≠ 0) &&
    (List.range s.recvDgramCount).all (fun i => decide (i ∈ s.received))

/-- Has the attached reply been sent and fully acknowledged? -/
def replyFullySent (s : UdpSlot) : Bool :=
  decide (s.sendDgramCount ≠ 0) &&
    (List.range s.sendDgramCount).all (fun i => decide (i ∈ s.acked))

/-- Modelled from the spec: a fully received incoming request whose reply has
not yet been fully delivered; a graceful shutdown "will wait until all fully
received requests have had their reply sent to them" (src/UdpServer.h lines
139-140). -/
def hasPendingIncomingReply (st : SrvState) : Bool :=
  st.slots.any (fun s => s.incoming && fullyReceived s && !replyFullySent s)

/-- Modelled from the spec: shutdown (declared at src/UdpServer.h lines
139-146): an urgent shutdown fails every active slot and completes
immediately (returns true); a graceful shutdown blocks (returns false) while
some fully received request still awaits its reply — sending error replies to
all new incoming requests in the meantime — and completes immediately
otherwise. -/
def shutdown (st : SrvState) (urgent : Bool) : Bool × SrvState :=
  if urgent then
    (true, { st with isShuttingDown := true,
                     slots := st.slots.map (fun s => { s with errno := ESHUTTINGDOWN }) })
  else if hasPendingIncomingReply st then (false, { st with isShuttingDown := true })
  else (true, { st with isShuttingDown := true })

/-- Claim C10: shutdown(urgent) returns false exactly when the shutdown could
not complete immediately — graceful mode with some fully received request
still waiting for its reply — and returns true when it completes immediately;
while a graceful shutdown is blocked, every new incoming request is answered
with an error reply (ECLOSED) instead of being processed, with no state
change. -/
theorem claim_C10_shutdown_blocking (st : SrvState) (urgent : Bool) (dg : UdpDgram)
    (now : Int) :
    ((shutdown st urgent).1 = false ↔
      (urgent = false ∧ hasPendingIncomingReply st = true)) ∧
    (hasPendingIncomingReply st = true →
      findSlot (shutdown st false).2.slots dg.transId true = none →
      readSock (shutdown st false).2 dg now =
        ((shutdown st false).2, RecvOutcome.errorReplyClosed ECLOSED)) := by
  constructor
  · cases urgent with
    | true => simp [shutdown]
    | false =>
      cases hp : hasPendingIncomingReply st with
      | true => simp [shutdown, hp]
      | false => simp [shutdown, hp]
  · intro hp hnone
    have hs2 : (shutdown st false).2 = { st with isShuttingDown := true } := by
      simp [shutdown, hp]
    rw [hs2] at hnone ⊢
    unfold readSock
    rw [hnone]
    rfl

/-- A concrete fully received incoming request with no reply attached yet. -/
def pendingIncomingSlot : UdpSlot :=
  { transId := 5, incoming := true, niceness := 1, sendDgramCount := 0,
    recvDgramCount := 1, sent := ∅, acked := ∅, received := {0}, acksToSend := ∅,
    recvBuf := {(0, 42)}, resendBackoffMs := 30, maxBackoffMs := 2000,
    nextResendAt := 100, timeoutMs := 60000, overallDeadline := 60000,
    resendCount := 0, maxResends := -1, errno := 0 }

/-- A concrete server state holding one pending fully received request. -/
def pendingState : SrvState :=
  { maxSlots := 8, slots := [pendingIncomingSlot], isShuttingDown := false }

/-- Witness for claim C10: a graceful shutdown of the concrete pending state
blocks, and a new incoming request then receives the ECLOSED error reply. -/
theorem claim_C10_shutdown_blocking_witness :
    ((shutdown pendingState false).1 = false ↔
      (false = false ∧ hasPendingIncomingReply pendingState = true)) ∧
    readSock (shutdown pendingState false).2 sampleDgram 0 =
      ((shutdown pendingState false).2, RecvOutcome.errorReplyClosed ECLOSED) := by
  have h := claim_C10_shutdown_blocking pendingState false sampleDgram 0
  exact ⟨h.1, h.2 (by decide) (by decide)⟩

end Udp
